import Mathlib

/-!
Verification of the spin.io real-time multiplayer core.

This file shallowly embeds the authoritative server simulation
(`server/src/GameRoom.ts`, latest revision in the repository), the room
registry (`server/src/server.ts`), the lag-compensation engine
(`server/src/LagCompensation.ts`), the client prediction engine
(`src/core/systems/NetworkSystem.ts`) and the single-player engine's dot
consumption (`src/features/game/GameEngine.ts`), and proves the testable
properties stated in the specification.

Modelling conventions:
* JavaScript numbers are embedded as exact rationals (`ℚ`);
  `Math.abs`, `Math.min` and `Math.max` are embedded as the
  branch-explicit `jabs`, `jmin`, `jmax` below.
* Calls to `Math.sqrt` are abstracted as an explicit function parameter
  `sq : ℚ → ℚ`; theorems either hold for every `sq` or carry hypotheses
  pinning `sq` to the exact square root at the relevant argument.
* Calls to `Math.random` (dot contents, spawn positions, ids) are
  abstracted as explicit streams (`ℕ → Dot`, `ℕ → Vec2`) together with a
  cursor `ctr` threaded through the state; none of the verified
  properties depend on the drawn values.
* The two player maps of a room (`room.players` and
  `room.gameState.players`) hold references to the same `PlayerData`
  objects and are updated in lockstep by every room operation, so they
  are modelled as a single insertion-ordered list `Room.players`
  (JavaScript `Map` preserves insertion order).
-/

/-- `Math.abs` on rationals. -/
def jabs (q : ℚ) : ℚ := if q < 0 then -q else q

/-- `Math.min` on rationals. -/
def jmin (a b : ℚ) : ℚ := if a ≤ b then a else b

/-- `Math.max` on rationals. -/
def jmax (a b : ℚ) : ℚ := if a ≤ b then b else a

/-- Two-dimensional vector, mirroring `Vector2` from `server/src/types.ts`. -/
structure Vec2 where
  x : ℚ
  y : ℚ
deriving DecidableEq, Repr

/-- `createVector2` from `server/src/utils.ts`. -/
def createVector2 (x y : ℚ) : Vec2 := ⟨x, y⟩

/-- `add` from `server/src/utils.ts`. -/
def vadd (a b : Vec2) : Vec2 := createVector2 (a.x + b.x) (a.y + b.y)

/-- `subtract` from `server/src/utils.ts`. -/
def vsub (a b : Vec2) : Vec2 := createVector2 (a.x - b.x) (a.y - b.y)

/-- `scale` from `server/src/utils.ts`. -/
def vscale (v : Vec2) (s : ℚ) : Vec2 := createVector2 (v.x * s) (v.y * s)

/-- Squared Euclidean distance; the source's `distance` is `Math.sqrt` of this. -/
def distSq (a b : Vec2) : ℚ := (a.x - b.x) * (a.x - b.x) + (a.y - b.y) * (a.y - b.y)

/-- `distance` from `server/src/utils.ts`: `Math.sqrt(dx*dx + dy*dy)`,
with `Math.sqrt` abstracted as the parameter `sq`. -/
def distance (sq : ℚ → ℚ) (a b : Vec2) : ℚ := sq (distSq a b)

/-- Result of `circleCollision`, mirroring `CollisionResult` from `types.ts`. -/
structure CollisionResult where
  hasCollision : Bool
  distance : ℚ
deriving DecidableEq, Repr

/-- `circleCollision` from `server/src/utils.ts`: the circles collide when
the centre distance is strictly below the radius sum. -/
def circleCollision (sq : ℚ → ℚ) (pos1 : Vec2) (radius1 : ℚ) (pos2 : Vec2) (radius2 : ℚ) :
    CollisionResult :=
  let dist := distance sq pos1 pos2
  let totalRadius := radius1 + radius2
  { hasCollision := decide (dist < totalRadius), distance := dist }

/-! ### Game configuration (`GAME_CONFIG` in `server/src/types.ts`) -/

def ARENA_WIDTH : ℚ := 800
def ARENA_HEIGHT : ℚ := 600
def SPINNER_INITIAL_SIZE : ℚ := 25
def SPINNER_INITIAL_SPEED : ℚ := 200
def DOT_COUNT : ℕ := 25
def MOVEMENT_DAMPING : ℚ := 95 / 100
def ACCELERATION : ℚ := 800
def MAX_PLAYERS_PER_ROOM : ℕ := 4

/-! ### Data model -/

/-- `Spinner` from `server/src/types.ts`. -/
structure Spinner where
  position : Vec2
  velocity : Vec2
  targetDirection : Vec2
  size : ℚ
  spinSpeed : ℚ
  rotation : ℚ
  maxSpeed : ℚ
deriving DecidableEq, Repr

/-- `PlayerData` from `server/src/types.ts`. -/
structure PlayerData where
  id : String
  name : String
  spinner : Spinner
  score : ℚ
  isAlive : Bool
  isHost : Bool
deriving DecidableEq, Repr

/-- `Dot` from `server/src/types.ts`; the random id string is dropped in
favour of the position/size/value payload drawn from the dot stream. -/
structure Dot where
  position : Vec2
  size : ℚ
  value : ℚ
deriving DecidableEq, Repr

/-- `GamePhase` from `server/src/types.ts`. -/
inductive GamePhase where
  | lobby
  | playing
  | gameOver
deriving DecidableEq, Repr

/-- A room (`Room` plus its `MultiplayerGameState`), with the model-level
additions `loopActive` (whether `gameLoopInterval` is armed) and `ctr`
(cursor into the random streams). -/
structure Room where
  code : String
  host : String
  phase : GamePhase
  players : List PlayerData
  dots : List Dot
  timeElapsed : ℚ
  isPlaying : Bool
  loopActive : Bool
  ctr : ℕ
deriving DecidableEq, Repr

/-! ### Boundary collisions (`GameRoom.checkBoundaryCollisions`, bounce
revision, `GameRoom.ts` lines 1450–1491).  The source runs four wall
checks in sequence, each reading the state left by the previous one; the
x-wall pair and the y-wall pair touch disjoint fields, so they are
embedded as two instances of one axis helper.  On contact the position is
clamped to the wall and the velocity component is set to the
restitution-scaled magnitude pointing away from the wall.  `isAlive` is
not touched. -/

def bounceBoost : ℚ := 8 / 10

/-- One axis of `checkBoundaryCollisions`: the low-wall check at 0
followed by the high-wall check at `limit`, returning (position,
velocity) for that axis.  The high-wall branch reads the velocity already
updated by the low-wall branch, exactly as in the source. -/
def axisLow (pos vel radius : ℚ) : ℚ × ℚ :=
  if pos - radius < 0 then (radius, jabs vel * bounceBoost) else (pos, vel)

def axisHigh (limit radius : ℚ) (s : ℚ × ℚ) : ℚ × ℚ :=
  if s.1 + radius > limit then (limit - radius, -(jabs s.2) * bounceBoost) else s

def axisBounce (limit pos vel radius : ℚ) : ℚ × ℚ :=
  axisHigh limit radius (axisLow pos vel radius)

def checkBoundaryCollisions (player : PlayerData) : PlayerData :=
  let s := player.spinner
  let radius := s.size / 2
  let xr := axisBounce ARENA_WIDTH s.position.x s.velocity.x radius
  let yr := axisBounce ARENA_HEIGHT s.position.y s.velocity.y radius
  { player with
      spinner := { s with position := createVector2 xr.1 yr.1,
                          velocity := createVector2 xr.2 yr.2 } }

/-- The oversized actor used to refute C1 as stated: its diameter (1300)
exceeds both arena dimensions. -/
def oversizedPlayer : PlayerData :=
  { id := "p1", name := "A",
    spinner :=
      { position := createVector2 400 0,
        velocity := createVector2 0 0,
        targetDirection := createVector2 0 0,
        size := 1300, spinSpeed := 0, rotation := 0, maxSpeed := 200 },
    score := 1300, isAlive := true, isHost := true }

/-- A concrete in-contact actor (size 25 touching the left wall). -/
def wallPlayer : PlayerData :=
  { id := "p2", name := "B",
    spinner :=
      { position := createVector2 2 300,
        velocity := createVector2 (-10) 0,
        targetDirection := createVector2 0 0,
        size := 25, spinSpeed := 0, rotation := 0, maxSpeed := 200 },
    score := 25, isAlive := true, isHost := false }

/-! ### Actor-vs-actor collisions (`GameRoom.handlePlayerCollision`,
lines 1548–1593, and `GameRoom.bouncePlayersApart`, lines 1598–1648). -/

def eliminationThreshold : ℚ := 13 / 10

def restitution : ℚ := 8 / 10

/-- `GameRoom.bouncePlayersApart`.  Returns the pair (player1, player2)
after the collision response.  The source first separates overlapping
players by half the overlap each along the contact normal, then — unless
the relative velocity along the normal is separating — applies an
elastic impulse to the velocities.  `Math.sqrt` is the parameter `sq`. -/
def bouncePlayersApart (sq : ℚ → ℚ) (player1 player2 : PlayerData) :
    PlayerData × PlayerData :=
  let pos1 := player1.spinner.position
  let pos2 := player2.spinner.position
  let dx := pos2.x - pos1.x
  let dy := pos2.y - pos1.y
  let dist := sq (dx * dx + dy * dy)
  if dist = 0 then (player1, player2)
  else
    let normalX := dx / dist
    let normalY := dy / dist
    let totalRadius := (player1.spinner.size + player2.spinner.size) / 2
    let overlap := totalRadius - dist
    let q :=
      if overlap > 0 then
        let separationX := normalX * overlap * (1 / 2)
        let separationY := normalY * overlap * (1 / 2)
        ({ player1 with spinner := { player1.spinner with
              position := createVector2 (pos1.x - separationX) (pos1.y - separationY) } },
         { player2 with spinner := { player2.spinner with
              position := createVector2 (pos2.x + separationX) (pos2.y + separationY) } })
      else (player1, player2)
    let mass1 := player1.spinner.size
    let mass2 := player2.spinner.size
    let relativeVelocityX := player1.spinner.velocity.x - player2.spinner.velocity.x
    let relativeVelocityY := player1.spinner.velocity.y - player2.spinner.velocity.y
    let velocityAlongNormal := relativeVelocityX * normalX + relativeVelocityY * normalY
    if velocityAlongNormal > 0 then q
    else
      let impulse := -(1 + restitution) * velocityAlongNormal / (1 / mass1 + 1 / mass2)
      ({ q.1 with spinner := { q.1.spinner with
            velocity := createVector2 (q.1.spinner.velocity.x + impulse / mass1 * normalX)
              (q.1.spinner.velocity.y + impulse / mass1 * normalY) } },
       { q.2 with spinner := { q.2.spinner with
            velocity := createVector2 (q.2.spinner.velocity.x - impulse / mass2 * normalX)
              (q.2.spinner.velocity.y - impulse / mass2 * normalY) } })

/-- The victor update of `GameRoom.handlePlayerCollision`: gain 50% of
the victim's (pre-collision) size, mirror the score, recompute max speed
from the new size. -/
def growVictor (victor : PlayerData) (victimSize : ℚ) : PlayerData :=
  let newSize := victor.spinner.size + victimSize * (1 / 2)
  { victor with
      spinner := { victor.spinner with
        size := newSize,
        maxSpeed := SPINNER_INITIAL_SPEED * (SPINNER_INITIAL_SIZE / newSize) },
      score := newSize }

/-- `GameRoom.handlePlayerCollision`: if the larger/smaller size ratio
reaches the elimination threshold 1.3, the larger player survives and
grows and the smaller is set not-alive; otherwise the two bounce apart. -/
def handlePlayerCollision (sq : ℚ → ℚ) (player1 player2 : PlayerData) :
    PlayerData × PlayerData :=
  let size1 := player1.spinner.size
  let size2 := player2.spinner.size
  let sizeRatio := jmax size1 size2 / jmin size1 size2
  if sizeRatio ≥ eliminationThreshold then
    if size1 > size2 then
      (growVictor player1 player2.spinner.size, { player2 with isAlive := false })
    else
      ({ player1 with isAlive := false }, growVictor player2 player1.spinner.size)
  else
    bouncePlayersApart sq player1 player2

/-- The size-40 actor of the specification scenario. -/
def sizedPlayer (pid : String) (s : ℚ) : PlayerData :=
  { id := pid, name := pid,
    spinner :=
      { position := createVector2 100 100,
        velocity := createVector2 0 0,
        targetDirection := createVector2 0 0,
        size := s, spinSpeed := 0, rotation := 0, maxSpeed := 200 },
    score := s, isAlive := true, isHost := false }

/-! ### Dot consumption and growth (`GameRoom.checkDotCollisions`,
lines 1415–1445, with `GameRoom.spawnNewDot`, lines 1653–1663, and the
single-player `GameEngine.consumeDot`, `GameEngine.ts` lines 175–193). -/

/-- Server-side growth on dot consumption (`spinner.size += dot.value`,
`GameRoom.ts` line 1432): no upper bound is applied. -/
def serverDotGrowSize (size value : ℚ) : ℚ := size + value

/-- `GAME_CONFIG.SPINNER_MAX_SIZE` of the client configuration
(`src/types.ts`). -/
def SPINNER_MAX_SIZE_CLIENT : ℚ := 100

/-- Single-player growth on dot consumption (`GameEngine.consumeDot`):
`Math.min(SPINNER_MAX_SIZE, size + value)`. -/
def clientConsumeDotSize (size value : ℚ) : ℚ :=
  jmin SPINNER_MAX_SIZE_CLIENT (size + value)

/-- The whole-player effect of one server dot consumption: grow, mirror
the score, recompute max speed from the new size. -/
def consumeDotServer (player : PlayerData) (dot : Dot) : PlayerData :=
  let newSize := serverDotGrowSize player.spinner.size dot.value
  { player with
      spinner := { player.spinner with
        size := newSize,
        maxSpeed := SPINNER_INITIAL_SPEED * (SPINNER_INITIAL_SIZE / newSize) },
      score := newSize }

/-- `GameRoom.generateDots`: `DOT_COUNT` dots drawn from the random
stream `fresh` at cursor `ctr`; returns the dots and the advanced cursor. -/
def generateDots (fresh : ℕ → Dot) (ctr : ℕ) : List Dot × ℕ :=
  ((List.range DOT_COUNT).map (fun i => fresh (ctr + i)), ctr + DOT_COUNT)

/-- One index of the `checkDotCollisions` loop: exact circle test against
`dots[i]`; on collision the dot is spliced out, the player grows, and
`spawnNewDot` pushes a replacement (drawn from `fresh`) at the end of the
array. -/
def dotStep (sq : ℚ → ℚ) (fresh : ℕ → Dot) (player : PlayerData) (dots : List Dot)
    (ctr : ℕ) (i : ℕ) : PlayerData × List Dot × ℕ :=
  match dots.get? i with
  | none => (player, dots, ctr)
  | some dot =>
    if (circleCollision sq player.spinner.position player.spinner.size
        dot.position dot.size).hasCollision then
      (consumeDotServer player dot, dots.eraseIdx i ++ [fresh ctr], ctr + 1)
    else (player, dots, ctr)

/-- The downward index loop of `checkDotCollisions`
(`for (let i = dots.length - 1; i >= 0; i--)`): the argument is the
current index, counting down to 0.  Splice-then-push keeps the array
length constant, so the indices stay valid exactly as in the source. -/
def dotLoop (sq : ℚ → ℚ) (fresh : ℕ → Dot) :
    PlayerData → List Dot → ℕ → ℕ → PlayerData × List Dot × ℕ
  | player, dots, ctr, 0 => dotStep sq fresh player dots ctr 0
  | player, dots, ctr, Nat.succ i =>
    let r := dotStep sq fresh player dots ctr (i + 1)
    dotLoop sq fresh r.1 r.2.1 r.2.2 i

/-- `GameRoom.checkDotCollisions` for one player against the shared dot
list, threading the random-stream cursor. -/
def checkDotCollisions (sq : ℚ → ℚ) (fresh : ℕ → Dot) (player : PlayerData)
    (dots : List Dot) (ctr : ℕ) : PlayerData × List Dot × ℕ :=
  match dots.length with
  | 0 => (player, dots, ctr)
  | Nat.succ n => dotLoop sq fresh player dots ctr n

/-! ### The tick (`GameRoom.updateGame`, lines 1361–1383). -/

/-- `GameRoom.updatePlayerSpinner` (lines 1388–1410): accelerate towards
the target velocity, damp, integrate position, advance rotation. -/
def updatePlayerSpinner (deltaTime : ℚ) (spinner : Spinner) : Spinner :=
  let targetVelocity := vscale spinner.targetDirection spinner.maxSpeed
  let velocityDiff := vscale
    (createVector2 (targetVelocity.x - spinner.velocity.x)
      (targetVelocity.y - spinner.velocity.y))
    (ACCELERATION * deltaTime)
  let v1 := vadd spinner.velocity velocityDiff
  let v2 := vscale v1 MOVEMENT_DAMPING
  { spinner with
      velocity := v2,
      position := vadd spinner.position (vscale v2 deltaTime),
      rotation := spinner.rotation + spinner.spinSpeed * deltaTime }

/-- The per-player body of `updateGame`'s first loop: alive players are
integrated, fed through dot collisions (against the shared dot list) and
boundary resolution; dead players are skipped. -/
def playersLoop (sq : ℚ → ℚ) (fresh : ℕ → Dot) (deltaTime : ℚ) :
    List PlayerData → List Dot → ℕ → List PlayerData × List Dot × ℕ
  | [], dots, ctr => ([], dots, ctr)
  | p :: rest, dots, ctr =>
    if p.isAlive then
      let p1 := { p with spinner := updatePlayerSpinner deltaTime p.spinner }
      let r := checkDotCollisions sq fresh p1 dots ctr
      let p3 := checkBoundaryCollisions r.1
      let rest' := playersLoop sq fresh deltaTime rest r.2.1 r.2.2
      (p3 :: rest'.1, rest'.2)
    else
      let rest' := playersLoop sq fresh deltaTime rest dots ctr
      (p :: rest'.1, rest'.2)

/-- Indices (into the player list) of the players alive when
`checkPlayerCollisions` snapshots `alivePlayers`. -/
def aliveIndices (ps : List PlayerData) : List ℕ :=
  (ps.enum.filter (fun x => x.2.isAlive)).map (fun x => x.1)

/-- The `i < j` pair ordering of the source's nested loop. -/
def orderedPairs : List ℕ → List (ℕ × ℕ)
  | [] => []
  | x :: xs => xs.map (fun y => (x, y)) ++ orderedPairs xs

/-- One iteration of the pair loop in `checkPlayerCollisions`
(lines 1496–1543): re-checks liveness on the current state, runs the
exact circle test on half-sizes, and on collision writes both updated
players back at their indices. -/
def collideAt (sq : ℚ → ℚ) (ps : List PlayerData) (ij : ℕ × ℕ) : List PlayerData :=
  match ps.get? ij.1, ps.get? ij.2 with
  | some p1, some p2 =>
    if p1.isAlive && p2.isAlive then
      if (circleCollision sq p1.spinner.position (p1.spinner.size / 2)
          p2.spinner.position (p2.spinner.size / 2)).hasCollision then
        let r := handlePlayerCollision sq p1 p2
        (ps.set ij.1 r.1).set ij.2 r.2
      else ps
    else ps
  | _, _ => ps

/-- `GameRoom.checkPlayerCollisions`. -/
def checkPlayerCollisions (sq : ℚ → ℚ) (ps : List PlayerData) : List PlayerData :=
  let alive := aliveIndices ps
  if alive.length < 2 then ps
  else (orderedPairs alive).foldl (fun acc ij => collideAt sq acc ij) ps

/-- `GameRoom.checkGameOver` (lines 1668–1687): at most one player alive
ends the game and stops the loop. -/
def checkGameOver (r : Room) : Room :=
  if (r.players.filter (fun p => p.isAlive)).length ≤ 1 then
    { r with phase := GamePhase.gameOver, isPlaying := false, loopActive := false }
  else r

/-- `GameRoom.updateGame`: advance elapsed time, run the per-player loop,
resolve player-vs-player collisions, then check for game over. -/
def updateGame (sq : ℚ → ℚ) (fresh : ℕ → Dot) (deltaTime : ℚ) (r : Room) : Room :=
  let u := playersLoop sq fresh deltaTime r.players r.dots r.ctr
  let ps := checkPlayerCollisions sq u.1
  checkGameOver { r with
      timeElapsed := r.timeElapsed + deltaTime,
      players := ps, dots := u.2.1, ctr := u.2.2 }

/-! ### Room membership and game start (`GameRoom.addPlayer`,
lines 995–1081, `GameRoom.removePlayer`, lines 1086–1107,
`GameRoom.startGame`, lines 1112–1180). -/

/-- `GAME_CONFIG.SPINNER_INITIAL_SPIN_SPEED` is `Math.PI * 2`, which is
irrational; its exact value is read by no verified property, so it is
modelled by a fixed rational stand-in. -/
def SPINNER_INITIAL_SPIN_SPEED : ℚ := 6283185307 / 1000000000

/-- `Map.set` on the insertion-ordered player list: replace in place when
the key is present, append otherwise. -/
def setPlayer (ps : List PlayerData) (p : PlayerData) : List PlayerData :=
  if ps.any (fun q => q.id == p.id) then
    ps.map (fun q => if q.id = p.id then p else q)
  else ps ++ [p]

/-- `GameRoom.addPlayer`: reject when full or already playing; otherwise
insert a fresh spinner at the spawn position (the randomized/clamped
spawn computation is abstracted as the `spawnPos` argument), the first
player to enter becoming host.  Returns the error (`none` on success)
and the updated room. -/
def addPlayer (playerId playerName : String) (spawnPos : Vec2) (r : Room) :
    Option String × Room :=
  if MAX_PLAYERS_PER_ROOM ≤ r.players.length then (some "Room is full", r)
  else if r.isPlaying then (some "Game already in progress", r)
  else
    let isHost := r.players.length == 0
    let spinner : Spinner :=
      { position := spawnPos,
        velocity := createVector2 0 0,
        targetDirection := createVector2 0 0,
        size := SPINNER_INITIAL_SIZE,
        spinSpeed := SPINNER_INITIAL_SPIN_SPEED,
        rotation := 0,
        maxSpeed := SPINNER_INITIAL_SPEED }
    let playerData : PlayerData :=
      { id := playerId, name := playerName, spinner := spinner,
        score := SPINNER_INITIAL_SIZE, isAlive := true, isHost := isHost }
    let host' := if isHost then playerId else r.host
    (none, { r with players := setPlayer r.players playerData, host := host' })

/-- `GameRoom.removePlayer`: delete the player; when the host leaves a
non-empty remainder, the earliest-joined remaining player becomes host.
Returns the source's boolean result and the updated room. -/
def removePlayer (playerId : String) (r : Room) : Bool × Room :=
  if r.players.any (fun q => q.id == playerId) then
    let players' := r.players.filter (fun q => !(q.id == playerId))
    if r.host = playerId then
      match players' with
      | [] => (true, { r with players := [] })
      | p0 :: t => (true, { r with players := { p0 with isHost := true } :: t, host := p0.id })
    else (true, { r with players := players' })
  else (false, r)

/-- The respawn pass of `startGame`: every player is revived, reset to
the initial size/speed and moved to its generated spawn position (the
randomized/trigonometric `generateSafeSpawnPositions` output is
abstracted as the stream `spawn`). -/
def respawnPlayers (spawn : ℕ → Vec2) (ps : List PlayerData) : List PlayerData :=
  ps.enum.map (fun x =>
    { x.2 with
        isAlive := true,
        score := SPINNER_INITIAL_SIZE,
        spinner := { x.2.spinner with
          position := spawn x.1,
          velocity := createVector2 0 0,
          targetDirection := createVector2 0 0,
          size := SPINNER_INITIAL_SIZE,
          maxSpeed := SPINNER_INITIAL_SPEED } })

/-- `GameRoom.startGame`: only the host, with at least two players, in a
room not already playing; on success the phase becomes `playing`, the
initial dots are generated, every player is respawned and the tick loop
is started. -/
def startGame (spawn : ℕ → Vec2) (fresh : ℕ → Dot) (playerId : String) (r : Room) :
    Option String × Room :=
  if playerId ≠ r.host then (some "Only host can start the game", r)
  else if r.players.length < 2 then (some "Need at least 2 players to start", r)
  else if r.isPlaying then (some "Game already started", r)
  else
    let g := generateDots fresh r.ctr
    (none, { r with
        phase := GamePhase.playing,
        dots := g.1,
        timeElapsed := 0,
        isPlaying := true,
        players := respawnPlayers spawn r.players,
        loopActive := true,
        ctr := g.2 })

/-- A newly constructed `GameRoom` (constructor, lines 966–990): lobby
phase, no players, no dots, not playing, no tick interval. -/
def freshRoom (code : String) : Room :=
  { code := code, host := "", phase := GamePhase.lobby, players := [], dots := [],
    timeElapsed := 0, isPlaying := false, loopActive := false, ctr := 0 }

/-- A membership operation against a room: a join (with its abstracted
random spawn position) or a leave. -/
inductive RoomOp where
  | add (playerId playerName : String) (spawnPos : Vec2)
  | remove (playerId : String)
deriving DecidableEq, Repr

def applyOp (r : Room) : RoomOp → Room
  | .add pid name pos => (addPlayer pid name pos r).2
  | .remove pid => (removePlayer pid r).2

def runOps (r : Room) : List RoomOp → Room
  | [] => r
  | op :: ops => runOps (applyOp r op) ops

/-- A trace is valid when no join re-uses a playerId already present in
the room at that moment (re-joining overwrites the `Map` entry in the
source). -/
def ValidOps : Room → List RoomOp → Prop
  | _, [] => True
  | r, op :: ops =>
    (match op with
     | .add pid _ _ => ∀ q ∈ r.players, q.id ≠ pid
     | .remove _ => True) ∧ ValidOps (applyOp r op) ops

/-- The invariant carried through membership operations: when non-empty,
exactly one player is host-flagged and the room's `host` field names it. -/
def HostInv (r : Room) : Prop :=
  r.players = [] ∨
    ∃ hp, r.players.filter (fun p => p.isHost) = [hp] ∧ hp.id = r.host

/-! ### The room registry (`server/src/server.ts`).  Rooms live in the
in-memory maps `rooms : code → GameRoom` and `playerRooms : socketId →
code`, modelled as insertion-ordered association lists. -/

def alistGet {α : Type} (l : List (String × α)) (k : String) : Option α :=
  (l.find? (fun x => x.1 == k)).map (fun x => x.2)

def alistSet {α : Type} (l : List (String × α)) (k : String) (v : α) :
    List (String × α) :=
  if l.any (fun x => x.1 == k) then l.map (fun x => if x.1 = k then (k, v) else x)
  else l ++ [(k, v)]

def alistDelete {α : Type} (l : List (String × α)) (k : String) : List (String × α) :=
  l.filter (fun x => !(x.1 == k))

structure ServerState where
  rooms : List (String × Room)
  playerRooms : List (String × String)
deriving Repr

/-- The `CREATE_ROOM` handler (lines 42–59): construct a room (its random
code abstracted as `code`), add the creator, register both maps on
success. -/
def handleCreateRoom (code : String) (spawnPos : Vec2) (socketId playerName : String)
    (s : ServerState) : ServerState :=
  let res := addPlayer socketId playerName spawnPos (freshRoom code)
  match res.1 with
  | some _ => s
  | none =>
    { rooms := alistSet s.rooms code res.2,
      playerRooms := alistSet s.playerRooms socketId code }

/-- The `JOIN_ROOM` handler (lines 62–90). -/
def handleJoinRoom (code : String) (spawnPos : Vec2) (socketId playerName : String)
    (s : ServerState) : ServerState :=
  match alistGet s.rooms code with
  | none => s
  | some room =>
    let res := addPlayer socketId playerName spawnPos room
    match res.1 with
    | some _ => s
    | none =>
      { rooms := alistSet s.rooms code res.2,
        playerRooms := alistSet s.playerRooms socketId code }

/-- The `START_GAME` handler (lines 93–112). -/
def handleStartGame (spawn : ℕ → Vec2) (fresh : ℕ → Dot) (socketId : String)
    (s : ServerState) : ServerState :=
  match alistGet s.playerRooms socketId with
  | none => s
  | some roomCode =>
    match alistGet s.rooms roomCode with
    | none => s
    | some room =>
      let res := startGame spawn fresh socketId room
      match res.1 with
      | some _ => s
      | none => { s with rooms := alistSet s.rooms roomCode res.2 }

/-- The `disconnect` handler (lines 115–141): remove the player from the
room; when the room becomes empty, delete it from the registry.  The
source never calls `gameRoom.destroy()` (and hence never
`stopGameLoop()`) in this path, so the modelled `loopActive` flag is left
untouched — this is the point claim C8 turns on. -/
def handleDisconnect (socketId : String) (s : ServerState) : ServerState :=
  match alistGet s.playerRooms socketId with
  | none => s
  | some roomCode =>
    let s' :=
      match alistGet s.rooms roomCode with
      | none => s
      | some room =>
        let res := removePlayer socketId room
        if res.2.players.isEmpty then { s with rooms := alistDelete s.rooms roomCode }
        else { s with rooms := alistSet s.rooms roomCode res.2 }
    { s' with playerRooms := alistDelete s'.playerRooms socketId }

/-! ### Lag compensation (`server/src/LagCompensation.ts`). -/

structure PlayerSnapshot where
  playerId : String
  timestamp : ℚ
  position : Vec2
  velocity : Vec2
  size : ℚ
  isAlive : Bool
deriving DecidableEq, Repr

structure WorldSnapshot where
  timestamp : ℚ
  players : List PlayerSnapshot
deriving DecidableEq, Repr

/-- `maxHistoryDuration = 1000` ms of retained history. -/
def maxHistoryDuration : ℚ := 1000

/-- Comparison step of `getSnapshotAtTime`: keep the snapshot whose
timestamp is strictly nearer the requested time (ties keep the earlier
one, as in the source's strict `<`). -/
def betterSnapshot (t : ℚ) (b s : WorldSnapshot) : WorldSnapshot :=
  if jabs (s.timestamp - t) < jabs (b.timestamp - t) then s else b

/-- `LagCompensationManager.getSnapshotAtTime` (lines 248–269): the
stored snapshot nearest the requested time, unless even the nearest one
is further away than the retention window. -/
def getSnapshotAtTime (history : List WorldSnapshot) (t : ℚ) : Option WorldSnapshot :=
  match history with
  | [] => none
  | s0 :: rest =>
    let best := rest.foldl (betterSnapshot t) s0
    if jabs (best.timestamp - t) > maxHistoryDuration then none else some best

/-- Result record of `validateHit`. -/
structure HitValidation where
  isValid : Bool
  rewindTime : ℚ
  attackerState : Option PlayerSnapshot
  targetState : Option PlayerSnapshot
deriving DecidableEq, Repr

def findPlayer (snap : WorldSnapshot) (pid : String) : Option PlayerSnapshot :=
  snap.players.find? (fun p => p.playerId == pid)

/-- `LagCompensationManager.validateHit` (lines 96–156): rewind to
`clientTimestamp − estimatedLatency`, reject when no snapshot is within
the retention window or either player is absent or dead there, otherwise
accept exactly when the distance is at most the players' half-size sum.
A pure function of the stored history — it throws nothing and mutates
nothing. -/
def validateHit (sq : ℚ → ℚ) (history : List WorldSnapshot)
    (attackerPlayerId targetPlayerId : String)
    (clientTimestamp estimatedLatency : ℚ) : HitValidation :=
  let rewindTime := clientTimestamp - estimatedLatency
  match getSnapshotAtTime history rewindTime with
  | none =>
    { isValid := false, rewindTime := rewindTime,
      attackerState := none, targetState := none }
  | some snap =>
    match findPlayer snap attackerPlayerId, findPlayer snap targetPlayerId with
    | some a, some t =>
      if a.isAlive && t.isAlive then
        let dist := sq (distSq a.position t.position)
        let hitRange := (a.size + t.size) / 2
        { isValid := decide (dist ≤ hitRange), rewindTime := rewindTime,
          attackerState := some a, targetState := some t }
      else
        { isValid := false, rewindTime := rewindTime,
          attackerState := findPlayer snap attackerPlayerId,
          targetState := findPlayer snap targetPlayerId }
    | oa, ot =>
      { isValid := false, rewindTime := rewindTime,
        attackerState := oa, targetState := ot }

/-! ### Client prediction and reconciliation
(`src/core/systems/NetworkSystem.ts`). -/

structure InputFrame where
  sequenceNumber : ℤ
  timestamp : ℚ
  direction : Vec2
  position : Vec2
  velocity : Vec2
deriving DecidableEq, Repr

structure ServerUpdate where
  sequenceNumber : ℤ
  timestamp : ℚ
  position : Vec2
  velocity : Vec2
deriving DecidableEq, Repr

/-- The network-relevant state of one client-predicted entity: its
`NetworkComponent` fields, the per-entity input and server-update
buffers, and its position/velocity components. -/
structure NetEntity where
  clientPredicted : Bool
  sequenceNumber : ℤ
  lastAcknowledged : ℤ
  inputBuffer : List InputFrame
  serverUpdates : List ServerUpdate
  position : Vec2
  velocity : Vec2
  targetDirection : Vec2
deriving DecidableEq, Repr

/-- Reconciliation error threshold (5 pixels). -/
def errorThreshold : ℚ := 5

/-- `Array.prototype.findIndex` on lists. -/
def jsFindIndex {α : Type} (p : α → Bool) : List α → Option ℕ
  | [] => none
  | a :: l => if p a then some 0 else (jsFindIndex p l).map (fun i => i + 1)

/-- `NetworkSystem.reapplyInputs` (lines 193–228): re-run each
unacknowledged input through the simplified physics step (normalize the
direction — `Math.sqrt` is `sq` — accelerate, damp, integrate). -/
def reapplyInputs (sq : ℚ → ℚ) (inputs : List InputFrame) (e : NetEntity) : NetEntity :=
  inputs.foldl (fun e input =>
    let deltaTime : ℚ := 16 / 1000
    let e := { e with targetDirection := input.direction }
    let e :=
      if input.direction.x ≠ 0 ∨ input.direction.y ≠ 0 then
        let magnitude := sq (input.direction.x * input.direction.x +
          input.direction.y * input.direction.y)
        { e with velocity := (createVector2
            (e.velocity.x + input.direction.x / magnitude * 800 * deltaTime)
            (e.velocity.y + input.direction.y / magnitude * 800 * deltaTime)) }
      else e
    let e := { e with velocity := (createVector2 (e.velocity.x * (95 / 100))
        (e.velocity.y * (95 / 100))) }
    { e with position := (createVector2 (e.position.x + e.velocity.x * deltaTime)
        (e.position.y + e.velocity.y * deltaTime)) }) e

/-- `NetworkSystem.reconcileWithServer` (lines 142–188): take the latest
buffered server update, find the input it acknowledges; if none is
buffered, return unchanged.  Otherwise, when the recorded prediction
differs from the server position by more than the threshold, snap to the
server state and re-apply the later inputs; in every found case drop the
inputs up to and including the acknowledged one. -/
def reconcileWithServer (sq : ℚ → ℚ) (e : NetEntity) : NetEntity :=
  match e.serverUpdates.getLast? with
  | none => e
  | some latestUpdate =>
    match jsFindIndex
        (fun input => input.sequenceNumber == latestUpdate.sequenceNumber)
        e.inputBuffer with
    | none => e
    | some i =>
      match e.inputBuffer.get? i with
      | none => e
      | some acknowledgedInput =>
        let errorMagnitude := sq (distSq latestUpdate.position acknowledgedInput.position)
        let e' :=
          if errorMagnitude > errorThreshold then
            reapplyInputs sq (e.inputBuffer.drop (i + 1))
              { e with position := latestUpdate.position,
                       velocity := latestUpdate.velocity }
          else e
        { e' with inputBuffer := e.inputBuffer.drop (i + 1) }

/-- The bounded append of `NetworkSystem.processServerUpdate`
(lines 100–137): push the update, evict the oldest entry beyond 50. -/
def boundedPush (l : List ServerUpdate) (u : ServerUpdate) : List ServerUpdate :=
  let updates := l ++ [u]
  if 50 < updates.length then updates.drop 1 else updates

/-- `NetworkSystem.processServerUpdate` (lines 100–137): record the
acknowledged sequence, append the update to the bounded buffer, and
trigger reconciliation for client-predicted entities when reconciliation
is enabled. -/
def processServerUpdate (sq : ℚ → ℚ) (reconciliationEnabled : Bool)
    (u : ServerUpdate) (e : NetEntity) : NetEntity :=
  let e := { e with lastAcknowledged := u.sequenceNumber,
                    serverUpdates := boundedPush e.serverUpdates u }
  if reconciliationEnabled && e.clientPredicted then reconcileWithServer sq e else e


/-! ### Concrete inputs used by the witnesses below. -/

def dot0 : Dot := { position := createVector2 100 100, size := 10, value := 3 }

def lobbyPlayer (pid : String) (h : Bool) : PlayerData :=
  { sizedPlayer pid 25 with isHost := h }

/-- A two-player lobby room with host "p1". -/
def lobbyRoom2 : Room :=
  { code := "4821", host := "p1", phase := GamePhase.lobby,
    players := [lobbyPlayer "p1" true, lobbyPlayer "p2" false],
    dots := [], timeElapsed := 0, isPlaying := false, loopActive := false, ctr := 0 }

/-- A one-player lobby room with host "p1". -/
def soloRoom : Room :=
  { code := "4821", host := "p1", phase := GamePhase.lobby,
    players := [lobbyPlayer "p1" true],
    dots := [], timeElapsed := 0, isPlaying := false, loopActive := false, ctr := 0 }


/-- A concrete playing room (two live players, the target dot count). -/
def playingRoom : Room :=
  { code := "4821", host := "p1", phase := GamePhase.playing,
    players := [lobbyPlayer "p1" true, lobbyPlayer "p2" false],
    dots := (List.range DOT_COUNT).map (fun _ => dot0),
    timeElapsed := 0, isPlaying := true, loopActive := true, ctr := 0 }


/-- Concrete historical player states for the lag-compensation witness. -/
def snapA : PlayerSnapshot :=
  { playerId := "a", timestamp := 1000, position := createVector2 100 100,
    velocity := createVector2 0 0, size := 30, isAlive := true }

def snapB : PlayerSnapshot :=
  { playerId := "b", timestamp := 1000, position := createVector2 103 104,
    velocity := createVector2 0 0, size := 20, isAlive := true }

def hist0 : List WorldSnapshot := [{ timestamp := 1000, players := [snapA, snapB] }]


/-- A minimal buffered input frame for the reconciliation witness. -/
def frame0 (n : ℤ) : InputFrame :=
  { sequenceNumber := n, timestamp := 0, direction := createVector2 0 0,
    position := createVector2 0 0, velocity := createVector2 0 0 }

/-- A minimal authoritative update for the reconciliation witness. -/
def upd0 (n : ℤ) : ServerUpdate :=
  { sequenceNumber := n, timestamp := 0, position := createVector2 7 0,
    velocity := createVector2 0 0 }

/-- A client-predicted entity with inputs 1, 2, 3 buffered. -/
def netE0 : NetEntity :=
  { clientPredicted := true, sequenceNumber := 3, lastAcknowledged := 0,
    inputBuffer := [frame0 1, frame0 2, frame0 3], serverUpdates := [],
    position := createVector2 0 0, velocity := createVector2 0 0,
    targetDirection := createVector2 0 0 }

/-! ## Theorems -/

theorem jabs_nonneg (q : ℚ) : 0 ≤ jabs q := by
  unfold jabs; split_ifs with h <;> linarith

/-- Behaviour of one axis of the bounce resolution when the diameter fits
between the walls. -/
theorem axisBounce_spec (limit pos vel radius : ℚ)
    (_h0 : 0 ≤ radius) (hfit : radius + radius ≤ limit) :
    (radius ≤ (axisBounce limit pos vel radius).1 ∧
      (axisBounce limit pos vel radius).1 ≤ limit - radius) ∧
    (pos - radius < 0 →
      (axisBounce limit pos vel radius).1 = radius ∧
      (axisBounce limit pos vel radius).2 = jabs vel * bounceBoost) ∧
    (pos + radius > limit →
      (axisBounce limit pos vel radius).1 = limit - radius ∧
      (axisBounce limit pos vel radius).2 = -(jabs vel) * bounceBoost) := by
  unfold axisBounce axisHigh axisLow
  split_ifs with h1 h2 h2 <;> dsimp only at h2 ⊢ <;>
    [exact absurd hfit (by linarith);
     exact ⟨⟨le_refl _, by linarith⟩, fun _ => ⟨rfl, rfl⟩, fun h => absurd h (by linarith)⟩;
     exact ⟨⟨by linarith, le_refl _⟩, fun h => absurd h (by linarith), fun _ => ⟨rfl, rfl⟩⟩;
     (simp only [not_lt] at h1 h2;
      exact ⟨⟨by linarith, by linarith⟩,
        fun h => absurd h (by linarith), fun h => absurd h (by linarith)⟩)]

/-- C1 (counterexample): boundary resolution does not keep every actor at
`radius ≤ y`.  For an actor of size 1300 at `(400, 0)` the top-wall clamp
sets `y := 650` and the bottom-wall clamp then sets `y := 600 − 650 = −50`,
which is below `radius = 650` and outside the arena. -/
theorem checkBoundaryCollisions_oversized_escapes :
    (checkBoundaryCollisions oversizedPlayer).spinner.position.y = -50 ∧
    ¬ (oversizedPlayer.spinner.size / 2 ≤
        (checkBoundaryCollisions oversizedPlayer).spinner.position.y) ∧
    (checkBoundaryCollisions oversizedPlayer).spinner.position.y < 0 := by
  norm_num [checkBoundaryCollisions, oversizedPlayer, axisBounce, axisLow, axisHigh,
    createVector2, ARENA_WIDTH, ARENA_HEIGHT, jabs, bounceBoost]

/-- C1 (amended): for every actor whose diameter fits in the arena
(`0 ≤ size ≤ ARENA_HEIGHT ≤ ARENA_WIDTH`), after the tick's boundary
resolution the position satisfies `radius ≤ x ≤ ARENA_WIDTH − radius` and
`radius ≤ y ≤ ARENA_HEIGHT − radius`, the actor is never eliminated by the
contact (`isAlive` is unchanged), and on contact with a wall the position
is clamped to that wall and the velocity component along the contacted
axis is set to the restitution-scaled magnitude directed away from the
wall (the reflection of any wall-ward velocity). -/
theorem checkBoundaryCollisions_bounce_invariant (p : PlayerData)
    (hnn : 0 ≤ p.spinner.size) (hfit : p.spinner.size ≤ ARENA_HEIGHT) :
    (p.spinner.size / 2 ≤ (checkBoundaryCollisions p).spinner.position.x ∧
      (checkBoundaryCollisions p).spinner.position.x ≤ ARENA_WIDTH - p.spinner.size / 2) ∧
    (p.spinner.size / 2 ≤ (checkBoundaryCollisions p).spinner.position.y ∧
      (checkBoundaryCollisions p).spinner.position.y ≤ ARENA_HEIGHT - p.spinner.size / 2) ∧
    (checkBoundaryCollisions p).isAlive = p.isAlive ∧
    (p.spinner.position.x - p.spinner.size / 2 < 0 →
      (checkBoundaryCollisions p).spinner.position.x = p.spinner.size / 2 ∧
      (checkBoundaryCollisions p).spinner.velocity.x = jabs p.spinner.velocity.x * bounceBoost) ∧
    (p.spinner.position.x + p.spinner.size / 2 > ARENA_WIDTH →
      (checkBoundaryCollisions p).spinner.position.x = ARENA_WIDTH - p.spinner.size / 2 ∧
      (checkBoundaryCollisions p).spinner.velocity.x =
        -(jabs p.spinner.velocity.x) * bounceBoost) ∧
    (p.spinner.position.y - p.spinner.size / 2 < 0 →
      (checkBoundaryCollisions p).spinner.position.y = p.spinner.size / 2 ∧
      (checkBoundaryCollisions p).spinner.velocity.y = jabs p.spinner.velocity.y * bounceBoost) ∧
    (p.spinner.position.y + p.spinner.size / 2 > ARENA_HEIGHT →
      (checkBoundaryCollisions p).spinner.position.y = ARENA_HEIGHT - p.spinner.size / 2 ∧
      (checkBoundaryCollisions p).spinner.velocity.y =
        -(jabs p.spinner.velocity.y) * bounceBoost) := by
  have hWH : ARENA_HEIGHT ≤ ARENA_WIDTH := by norm_num [ARENA_WIDTH, ARENA_HEIGHT]
  have hr : 0 ≤ p.spinner.size / 2 := by linarith
  have hx := axisBounce_spec ARENA_WIDTH p.spinner.position.x p.spinner.velocity.x
    (p.spinner.size / 2) hr (by linarith)
  have hy := axisBounce_spec ARENA_HEIGHT p.spinner.position.y p.spinner.velocity.y
    (p.spinner.size / 2) hr (by linarith)
  simp only [checkBoundaryCollisions, createVector2]
  exact ⟨hx.1, hy.1, trivial, hx.2.1, hx.2.2, hy.2.1, hy.2.2⟩

/-- Witness for `checkBoundaryCollisions_bounce_invariant` at `wallPlayer`. -/
theorem checkBoundaryCollisions_bounce_invariant_witness :
    (0 : ℚ) ≤ wallPlayer.spinner.size ∧
    wallPlayer.spinner.size ≤ ARENA_HEIGHT ∧
    (wallPlayer.spinner.size / 2 ≤
        (checkBoundaryCollisions wallPlayer).spinner.position.x ∧
      (checkBoundaryCollisions wallPlayer).spinner.position.x ≤
        ARENA_WIDTH - wallPlayer.spinner.size / 2) ∧
    (checkBoundaryCollisions wallPlayer).isAlive = wallPlayer.isAlive := by
  have h := checkBoundaryCollisions_bounce_invariant wallPlayer
    (by norm_num [wallPlayer]) (by norm_num [wallPlayer, ARENA_HEIGHT])
  exact ⟨by norm_num [wallPlayer], by norm_num [wallPlayer, ARENA_HEIGHT], h.1, h.2.2.1⟩

/-- C2: for two living actors whose larger/smaller size ratio is at least
1.3, resolving the collision eliminates exactly the smaller one
(`isAlive := false`, its size untouched), the survivor stays alive and
gains exactly 50% of the eliminated actor's pre-collision size (score
mirrored), and the survivor's max speed is recomputed from its new size. -/
theorem handlePlayerCollision_elimination (sq : ℚ → ℚ) (p1 p2 : PlayerData)
    (ha1 : p1.isAlive = true) (ha2 : p2.isAlive = true)
    (hr : jmax p1.spinner.size p2.spinner.size / jmin p1.spinner.size p2.spinner.size ≥
      eliminationThreshold) :
    (p2.spinner.size < p1.spinner.size →
      (handlePlayerCollision sq p1 p2).1.isAlive = true ∧
      (handlePlayerCollision sq p1 p2).2.isAlive = false ∧
      (handlePlayerCollision sq p1 p2).1.spinner.size =
        p1.spinner.size + p2.spinner.size * (1 / 2) ∧
      (handlePlayerCollision sq p1 p2).1.score =
        p1.spinner.size + p2.spinner.size * (1 / 2) ∧
      (handlePlayerCollision sq p1 p2).1.spinner.maxSpeed =
        SPINNER_INITIAL_SPEED * (SPINNER_INITIAL_SIZE /
          (p1.spinner.size + p2.spinner.size * (1 / 2))) ∧
      (handlePlayerCollision sq p1 p2).2.spinner.size = p2.spinner.size) ∧
    (p1.spinner.size < p2.spinner.size →
      (handlePlayerCollision sq p1 p2).2.isAlive = true ∧
      (handlePlayerCollision sq p1 p2).1.isAlive = false ∧
      (handlePlayerCollision sq p1 p2).2.spinner.size =
        p2.spinner.size + p1.spinner.size * (1 / 2) ∧
      (handlePlayerCollision sq p1 p2).2.score =
        p2.spinner.size + p1.spinner.size * (1 / 2) ∧
      (handlePlayerCollision sq p1 p2).2.spinner.maxSpeed =
        SPINNER_INITIAL_SPEED * (SPINNER_INITIAL_SIZE /
          (p2.spinner.size + p1.spinner.size * (1 / 2))) ∧
      (handlePlayerCollision sq p1 p2).1.spinner.size = p1.spinner.size) := by
  constructor
  · intro hlt
    have hgt : p1.spinner.size > p2.spinner.size := hlt
    simp only [handlePlayerCollision, growVictor, if_pos hr, if_pos hgt]
    refine ⟨?_, ?_, ?_, ?_, ?_, ?_⟩ <;> first | exact ha1 | trivial
  · intro hlt
    have hngt : ¬ p1.spinner.size > p2.spinner.size := not_lt.mpr (le_of_lt hlt)
    simp only [handlePlayerCollision, growVictor, if_pos hr, if_neg hngt]
    refine ⟨?_, ?_, ?_, ?_, ?_, ?_⟩ <;> first | exact ha2 | trivial

/-- Witness for `handlePlayerCollision_elimination`: the specification
scenario — size 40 versus size 25 (ratio 1.6 ≥ 1.3) eliminates the
size-25 actor and grows the survivor to exactly 52.5. -/
theorem handlePlayerCollision_elimination_witness :
    (handlePlayerCollision (fun q => q) (sizedPlayer "a" 40) (sizedPlayer "b" 25)).1.spinner.size
        = 105 / 2 ∧
    (handlePlayerCollision (fun q => q) (sizedPlayer "a" 40) (sizedPlayer "b" 25)).2.isAlive
        = false ∧
    (handlePlayerCollision (fun q => q) (sizedPlayer "a" 40) (sizedPlayer "b" 25)).1.isAlive
        = true := by
  have h := (handlePlayerCollision_elimination (fun q => q)
    (sizedPlayer "a" 40) (sizedPlayer "b" 25) rfl rfl
    (by norm_num [jmax, jmin, sizedPlayer, eliminationThreshold])).1
    (by norm_num [sizedPlayer])
  refine ⟨?_, h.2.1, h.1⟩
  have hs := h.2.2.1
  rw [hs]
  norm_num [sizedPlayer]

/-- C10: `bouncePlayersApart` is total on the degenerate input — when the
two actors occupy exactly the same position the computed distance is
`Math.sqrt 0 = 0` and the function returns both actors unchanged, so the
divisions by the distance never divide by zero; and for every genuinely
overlapping pair (positive distance `d`, positive overlap) the two actors
are first separated along the contact normal by half the overlap each,
sizes and liveness untouched. -/
theorem bouncePlayersApart_total_and_separates (sq : ℚ → ℚ) (p1 p2 : PlayerData)
    (hsq0 : sq 0 = 0) :
    (p1.spinner.position = p2.spinner.position →
      bouncePlayersApart sq p1 p2 = (p1, p2)) ∧
    (∀ d : ℚ,
      d = sq ((p2.spinner.position.x - p1.spinner.position.x) *
                (p2.spinner.position.x - p1.spinner.position.x) +
              (p2.spinner.position.y - p1.spinner.position.y) *
                (p2.spinner.position.y - p1.spinner.position.y)) →
      0 < d →
      d * d = (p2.spinner.position.x - p1.spinner.position.x) *
                (p2.spinner.position.x - p1.spinner.position.x) +
              (p2.spinner.position.y - p1.spinner.position.y) *
                (p2.spinner.position.y - p1.spinner.position.y) →
      0 < (p1.spinner.size + p2.spinner.size) / 2 - d →
      ((bouncePlayersApart sq p1 p2).1.spinner.position =
          createVector2
            (p1.spinner.position.x -
              (p2.spinner.position.x - p1.spinner.position.x) / d *
                ((p1.spinner.size + p2.spinner.size) / 2 - d) * (1 / 2))
            (p1.spinner.position.y -
              (p2.spinner.position.y - p1.spinner.position.y) / d *
                ((p1.spinner.size + p2.spinner.size) / 2 - d) * (1 / 2)) ∧
        (bouncePlayersApart sq p1 p2).2.spinner.position =
          createVector2
            (p2.spinner.position.x +
              (p2.spinner.position.x - p1.spinner.position.x) / d *
                ((p1.spinner.size + p2.spinner.size) / 2 - d) * (1 / 2))
            (p2.spinner.position.y +
              (p2.spinner.position.y - p1.spinner.position.y) / d *
                ((p1.spinner.size + p2.spinner.size) / 2 - d) * (1 / 2)) ∧
        (bouncePlayersApart sq p1 p2).1.spinner.size = p1.spinner.size ∧
        (bouncePlayersApart sq p1 p2).2.spinner.size = p2.spinner.size ∧
        (bouncePlayersApart sq p1 p2).1.isAlive = p1.isAlive ∧
        (bouncePlayersApart sq p1 p2).2.isAlive = p2.isAlive)) := by
  constructor
  · intro heq
    have hdx : p2.spinner.position.x - p1.spinner.position.x = 0 := by rw [heq]; ring
    have hdy : p2.spinner.position.y - p1.spinner.position.y = 0 := by rw [heq]; ring
    simp only [bouncePlayersApart, hdx, hdy]
    norm_num [hsq0]
  · intro d hd hdpos hdsq hoverlap
    have hdne' : d ≠ 0 := ne_of_gt hdpos
    simp only [bouncePlayersApart, ← hd]
    split_ifs with hz hov <;>
      first
        | exact absurd hz hdne'
        | exact absurd hoverlap hov
        | refine ⟨?_, ?_, ?_, ?_, ?_, ?_⟩ <;> rfl

/-- Witness for `bouncePlayersApart_total_and_separates`: a 3-4-5
configuration (distance 5, sizes 10 and 10, overlap 5) and the degenerate
same-position case. -/
theorem bouncePlayersApart_total_and_separates_witness :
    (bouncePlayersApart (fun q => if q = 25 then 5 else 0)
        (sizedPlayer "a" 10) (sizedPlayer "a" 10) = (sizedPlayer "a" 10, sizedPlayer "a" 10)) ∧
    (bouncePlayersApart (fun q => if q = 25 then 5 else 0)
        (sizedPlayer "a" 10)
        { sizedPlayer "b" 10 with spinner := { (sizedPlayer "b" 10).spinner with
            position := createVector2 103 104 } }).1.spinner.position =
      createVector2 (100 - 3 / 5 * 5 * (1 / 2)) (100 - 4 / 5 * 5 * (1 / 2)) := by
  have hA := (bouncePlayersApart_total_and_separates (fun q => if q = 25 then 5 else 0)
    (sizedPlayer "a" 10) (sizedPlayer "a" 10) (by norm_num)).1 rfl
  have hB := ((bouncePlayersApart_total_and_separates (fun q => if q = 25 then 5 else 0)
    (sizedPlayer "a" 10)
    { sizedPlayer "b" 10 with spinner := { (sizedPlayer "b" 10).spinner with
        position := createVector2 103 104 } } (by norm_num)).2 5
    (by norm_num [sizedPlayer, createVector2])
    (by norm_num)
    (by norm_num [sizedPlayer, createVector2])
    (by norm_num [sizedPlayer, createVector2])).1
  refine ⟨hA, ?_⟩
  rw [hB]
  norm_num [sizedPlayer, createVector2]

/-- C9: the authoritative server and the single-player engine disagree on
dot consumption — the server adds `dot.value` with no cap while the
single-player engine clamps at `SPINNER_MAX_SIZE`; the two growth
functions agree exactly when the un-clamped result does not exceed the
cap. -/
theorem consumeDot_refinement (s v : ℚ) :
    serverDotGrowSize s v = clientConsumeDotSize s v ↔
      s + v ≤ SPINNER_MAX_SIZE_CLIENT := by
  unfold serverDotGrowSize clientConsumeDotSize jmin SPINNER_MAX_SIZE_CLIENT
  split_ifs with h
  · exact ⟨fun he => le_of_eq he, fun hle => le_antisymm hle h⟩
  · exact ⟨fun _ => by push_neg at h; linarith, fun _ => rfl⟩

/-- Witness for `consumeDot_refinement`: growth 50 + 3 is below the cap
and the two engines agree there; growth 98 + 5 crosses the cap and they
disagree. -/
theorem consumeDot_refinement_witness :
    serverDotGrowSize 50 3 = clientConsumeDotSize 50 3 ∧
    serverDotGrowSize 98 5 ≠ clientConsumeDotSize 98 5 := by
  constructor
  · exact (consumeDot_refinement 50 3).mpr (by norm_num [SPINNER_MAX_SIZE_CLIENT])
  · intro he
    have := (consumeDot_refinement 98 5).mp he
    norm_num [SPINNER_MAX_SIZE_CLIENT] at this

/-- C4: `startGame` fails (returning an error and leaving the room, in
particular its phase, dots and `isPlaying`, unchanged) exactly when the
requester is not the host, or fewer than two players are present, or the
game is already playing; otherwise it succeeds, sets the phase to
`playing`, arms the tick loop and creates the `DOT_COUNT` initial dots.
With exactly one player it always fails. -/
theorem startGame_spec (spawn : ℕ → Vec2) (fresh : ℕ → Dot) (pid : String) (r : Room) :
    ((startGame spawn fresh pid r).1 ≠ none ↔
      (pid ≠ r.host ∨ r.players.length < 2 ∨ r.isPlaying = true)) ∧
    ((startGame spawn fresh pid r).1 ≠ none → (startGame spawn fresh pid r).2 = r) ∧
    ((startGame spawn fresh pid r).1 = none →
      ((startGame spawn fresh pid r).2.phase = GamePhase.playing ∧
       (startGame spawn fresh pid r).2.isPlaying = true ∧
       (startGame spawn fresh pid r).2.loopActive = true ∧
       (startGame spawn fresh pid r).2.dots.length = DOT_COUNT)) ∧
    (r.players.length = 1 → (startGame spawn fresh pid r).1 ≠ none) := by
  unfold startGame
  split_ifs with h1 h2 h3
  · exact ⟨⟨fun _ => Or.inl h1, fun _ => by simp⟩, fun _ => rfl, by simp, fun _ => by simp⟩
  · exact ⟨⟨fun _ => Or.inr (Or.inl h2), fun _ => by simp⟩, fun _ => rfl, by simp,
      fun _ => by simp⟩
  · exact ⟨⟨fun _ => Or.inr (Or.inr h3), fun _ => by simp⟩, fun _ => rfl, by simp,
      fun _ => by simp⟩
  · push_neg at h1 h2
    refine ⟨⟨fun hn => absurd rfl hn, fun hd => ?_⟩, fun hn => absurd rfl hn,
      fun _ => ⟨rfl, rfl, rfl, by simp [generateDots]⟩,
      fun hl => absurd (hl ▸ (by norm_num : (1 : ℕ) < 2)) (by omega)⟩
    rcases hd with hd | hd | hd
    · exact absurd h1 hd
    · omega
    · exact absurd hd (by simp [h3])

/-- Witness for `startGame_spec`: in the two-player lobby room the host's
start succeeds, switches the phase to `playing`, arms the loop and
creates 25 dots; in the one-player room every start fails. -/
theorem startGame_spec_witness :
    (startGame (fun _ => createVector2 400 300) (fun _ => dot0) "p1" lobbyRoom2).1 = none ∧
    (startGame (fun _ => createVector2 400 300) (fun _ => dot0) "p1" lobbyRoom2).2.phase
      = GamePhase.playing ∧
    (startGame (fun _ => createVector2 400 300) (fun _ => dot0) "p1" lobbyRoom2).2.loopActive
      = true ∧
    (startGame (fun _ => createVector2 400 300) (fun _ => dot0) "p1" lobbyRoom2).2.dots.length
      = DOT_COUNT ∧
    (startGame (fun _ => createVector2 400 300) (fun _ => dot0) "p1" soloRoom).1 ≠ none := by
  have hok : (startGame (fun _ => createVector2 400 300) (fun _ => dot0) "p1" lobbyRoom2).1
      = none := by
    simp [startGame, lobbyRoom2]
  have h := (startGame_spec (fun _ => createVector2 400 300) (fun _ => dot0) "p1"
    lobbyRoom2).2.2.1 hok
  have h1 := (startGame_spec (fun _ => createVector2 400 300) (fun _ => dot0) "p1"
    soloRoom).2.2.2 (by simp [soloRoom, lobbyPlayer])
  exact ⟨hok, h.1, h.2.2.1, h.2.2.2, h1⟩

theorem dotStep_dots_length (sq : ℚ → ℚ) (fresh : ℕ → Dot) (p : PlayerData)
    (dots : List Dot) (ctr i : ℕ) :
    ((dotStep sq fresh p dots ctr i).2.1).length = dots.length := by
  unfold dotStep
  cases hg : dots.get? i with
  | none => rfl
  | some d =>
    dsimp only
    split_ifs with hc
    · have hi : i < dots.length := by
        by_contra hn
        push_neg at hn
        rw [List.get?_eq_none.mpr hn] at hg
        exact absurd hg (by simp)
      have h1 := List.length_eraseIdx_add_one hi
      simp only [List.length_append, List.length_singleton]
      omega
    · rfl

theorem dotLoop_dots_length (sq : ℚ → ℚ) (fresh : ℕ → Dot) :
    ∀ (i : ℕ) (p : PlayerData) (dots : List Dot) (ctr : ℕ),
      ((dotLoop sq fresh p dots ctr i).2.1).length = dots.length := by
  intro i
  induction i with
  | zero =>
    intro p dots ctr
    exact dotStep_dots_length sq fresh p dots ctr 0
  | succ n ih =>
    intro p dots ctr
    unfold dotLoop
    exact (ih _ _ _).trans (dotStep_dots_length sq fresh p dots ctr (n + 1))

theorem checkDotCollisions_dots_length (sq : ℚ → ℚ) (fresh : ℕ → Dot) (p : PlayerData)
    (dots : List Dot) (ctr : ℕ) :
    ((checkDotCollisions sq fresh p dots ctr).2.1).length = dots.length := by
  unfold checkDotCollisions
  split
  · rfl
  · exact dotLoop_dots_length sq fresh _ p dots ctr

theorem playersLoop_dots_length (sq : ℚ → ℚ) (fresh : ℕ → Dot) (dt : ℚ) :
    ∀ (ps : List PlayerData) (dots : List Dot) (ctr : ℕ),
      ((playersLoop sq fresh dt ps dots ctr).2.1).length = dots.length := by
  intro ps
  induction ps with
  | nil => intro dots ctr; rfl
  | cons p rest ih =>
    intro dots ctr
    unfold playersLoop
    split_ifs with ha
    · exact (ih _ _).trans (checkDotCollisions_dots_length sq fresh _ dots ctr)
    · exact ih dots ctr

theorem updateGame_dots_length (sq : ℚ → ℚ) (fresh : ℕ → Dot) (dt : ℚ) (r : Room) :
    (updateGame sq fresh dt r).dots.length = r.dots.length := by
  have h := playersLoop_dots_length sq fresh dt r.players r.dots r.ctr
  simp only [updateGame, checkGameOver]
  split_ifs <;> exact h

theorem startGame_ok_dots (spawn : ℕ → Vec2) (fresh : ℕ → Dot) (pid : String) (r : Room)
    (hok : (startGame spawn fresh pid r).1 = none) :
    (startGame spawn fresh pid r).2.dots.length = DOT_COUNT := by
  unfold startGame at hok ⊢
  split_ifs at hok ⊢
  all_goals simp_all [generateDots]

/-- C3: the live dot count is pinned at `DOT_COUNT` — `startGame` creates
exactly `DOT_COUNT` dots, and a tick of the playing room (each consumed
dot being replaced in the same tick by `spawnNewDot`) leaves the count
unchanged, so after any tick it still equals `DOT_COUNT`. -/
theorem dot_count_invariant (sq : ℚ → ℚ) (fresh : ℕ → Dot) (dt : ℚ) (r : Room)
    (_hphase : r.phase = GamePhase.playing) (hlen : r.dots.length = DOT_COUNT) :
    (updateGame sq fresh dt r).dots.length = DOT_COUNT ∧
    (∀ (spawn : ℕ → Vec2) (pid : String) (r0 : Room),
      (startGame spawn fresh pid r0).1 = none →
      (startGame spawn fresh pid r0).2.dots.length = DOT_COUNT) := by
  refine ⟨?_, fun spawn pid r0 hok => startGame_ok_dots spawn fresh pid r0 hok⟩
  rw [updateGame_dots_length]
  exact hlen

/-- Witness for `dot_count_invariant` on the concrete playing room. -/
theorem dot_count_invariant_witness :
    playingRoom.phase = GamePhase.playing ∧
    playingRoom.dots.length = DOT_COUNT ∧
    (updateGame (fun q => q) (fun _ => dot0) (1 / 60) playingRoom).dots.length = DOT_COUNT := by
  have h := dot_count_invariant (fun q => q) (fun _ => dot0) (1 / 60) playingRoom rfl
    (by simp [playingRoom])
  exact ⟨rfl, by simp [playingRoom], h.1⟩

theorem applyOp_players_length (r : Room) (op : RoomOp)
    (h : r.players.length ≤ MAX_PLAYERS_PER_ROOM) :
    (applyOp r op).players.length ≤ MAX_PLAYERS_PER_ROOM := by
  cases op with
  | add pid name pos =>
    simp only [applyOp, addPlayer]
    split_ifs with h1 h2 h3 <;>
      [exact h; exact h; skip; skip] <;>
      (dsimp only
       simp only [setPlayer]
       split_ifs with h4
       · simpa using h
       · simp only [List.length_append, List.length_singleton,
           MAX_PLAYERS_PER_ROOM] at h1 ⊢
         omega)
  | remove pid =>
    simp only [applyOp, removePlayer]
    split_ifs with h1 h2
    · cases hp : r.players.filter (fun q => !(q.id == pid)) with
      | nil => simp [hp, MAX_PLAYERS_PER_ROOM]
      | cons a t =>
        have hf := List.length_filter_le (fun q => !(q.id == pid)) r.players
        rw [hp] at hf
        simp only [hp]
        simpa using le_trans hf h
    · have hf := List.length_filter_le (fun q => !(q.id == pid)) r.players
      exact le_trans hf h
    · exact h

theorem applyOp_hostInv (r : Room) (op : RoomOp) (hinv : HostInv r)
    (hv : match op with
      | .add pid _ _ => ∀ q ∈ r.players, q.id ≠ pid
      | .remove _ => True) :
    HostInv (applyOp r op) := by
  cases op with
  | add pid name pos =>
    simp only at hv
    have hany : r.players.any (fun q => q.id == pid) = false := by
      simp only [List.any_eq_false]
      intro q hq
      simpa using hv q hq
    have hset : ∀ pd : PlayerData, pd.id = pid →
        setPlayer r.players pd = r.players ++ [pd] := by
      intro pd hid
      unfold setPlayer
      rw [if_neg (by simp [hid, hany])]
    simp only [applyOp, addPlayer]
    split_ifs with h1 h2 hHost
    · exact hinv
    · exact hinv
    · -- first player: the room was empty
      have hr : r.players = [] := by
        have : r.players.length = 0 := by simpa using hHost
        exact List.length_eq_zero.mp this
      unfold HostInv
      dsimp only
      rw [hset _ rfl, hr]
      right
      simp
    · -- later player: joins as non-host
      have hr : r.players ≠ [] := by
        intro he
        rw [he] at hHost
        simp at hHost
      have hHost' : (r.players.length == 0) = false := by simpa using hHost
      rcases hinv with he | ⟨hp, hfil, hid⟩
      · exact absurd he hr
      · unfold HostInv
        dsimp only
        rw [hset _ rfl]
        refine Or.inr ⟨hp, ?_, ?_⟩
        · rw [List.filter_append, hfil]
          simp [hHost']
        · exact hid
  | remove pid =>
    simp only [applyOp, removePlayer]
    split_ifs with h1 h2
    · -- the host leaves
      have hne : r.players ≠ [] := by
        intro he
        rw [he] at h1
        simp at h1
      rcases hinv with he | ⟨hp, hfil, hid⟩
      · exact absurd he hne
      · have hnone : (r.players.filter (fun q => !(q.id == pid))).filter
            (fun p => p.isHost) = [] := by
          rw [List.filter_comm, hfil]
          simp [hid, h2]
        unfold HostInv
        cases hp2 : r.players.filter (fun q => !(q.id == pid)) with
        | nil => simp [hp2]
        | cons a t =>
          rw [hp2, List.filter_cons] at hnone
          split_ifs at hnone with hca
          first
            | exact absurd hnone (List.cons_ne_nil _ _)
            | (simp only [hp2]
               refine Or.inr ⟨{ a with isHost := true }, ?_, rfl⟩
               rw [List.filter_cons]
               dsimp only
               rw [if_pos rfl, hnone])
    · -- a non-host leaves
      have hne : r.players ≠ [] := by
        intro he
        rw [he] at h1
        simp at h1
      rcases hinv with he | ⟨hp, hfil, hid⟩
      · exact absurd he hne
      · refine Or.inr ⟨hp, ?_, hid⟩
        rw [List.filter_comm, hfil]
        have hhp : (!(hp.id == pid)) = true := by
          simp only [hid]
          simpa using h2
        simp [hhp]
    · exact hinv

theorem runOps_inv (ops : List RoomOp) : ∀ r : Room,
    r.players.length ≤ MAX_PLAYERS_PER_ROOM →
    ((runOps r ops).players.length ≤ MAX_PLAYERS_PER_ROOM ∧
     (HostInv r → ValidOps r ops → HostInv (runOps r ops))) := by
  induction ops with
  | nil => exact fun r h => ⟨h, fun hi _ => hi⟩
  | cons op ops ih =>
    intro r h
    have hlen := applyOp_players_length r op h
    obtain ⟨ih1, ih2⟩ := ih (applyOp r op) hlen
    exact ⟨ih1, fun hi hv => ih2 (applyOp_hostInv r op hi hv.1) hv.2⟩

/-- C5 (amended): for every operation sequence from a fresh room the
player count never exceeds `MAX_PLAYERS_PER_ROOM` (the capacity
rejection); and provided no join re-uses a playerId already in the room,
whenever the room is non-empty exactly one player is host-flagged — the
first player to join becomes host (third conjunct) and host departure
re-assigns the flag to exactly one remaining player. -/
theorem room_membership_invariants (code : String) (ops : List RoomOp) :
    (runOps (freshRoom code) ops).players.length ≤ MAX_PLAYERS_PER_ROOM ∧
    (ValidOps (freshRoom code) ops →
      (runOps (freshRoom code) ops).players ≠ [] →
      ((runOps (freshRoom code) ops).players.filter (fun p => p.isHost)).length = 1) ∧
    (∀ pid name pos,
      ((addPlayer pid name pos (freshRoom code)).2.players.map
        (fun p => (p.id, p.isHost))) = [(pid, true)]) := by
  have h := runOps_inv ops (freshRoom code) (by simp [freshRoom, MAX_PLAYERS_PER_ROOM])
  refine ⟨h.1, fun hv hne => ?_, fun pid name pos => ?_⟩
  · have hinv := h.2 (Or.inl rfl) hv
    rcases hinv with he | ⟨hp, hfil, _⟩
    · exact absurd he hne
    · rw [hfil]; rfl
  · simp [addPlayer, setPlayer, freshRoom, MAX_PLAYERS_PER_ROOM]

/-- C5 (counterexample): the claim fails as stated for arbitrary
sequences — a second `addPlayer` with the playerId of the sitting host
overwrites the host's `Map` entry with a non-host record (`isHost` is
computed from the room size, here non-zero), leaving the non-empty room
with zero host-flagged players. -/
theorem duplicate_join_overwrites_host :
    (runOps (freshRoom "4821")
      [RoomOp.add "a" "Ann" (createVector2 0 0),
       RoomOp.add "a" "Bob" (createVector2 0 0)]).players ≠ [] ∧
    ((runOps (freshRoom "4821")
      [RoomOp.add "a" "Ann" (createVector2 0 0),
       RoomOp.add "a" "Bob" (createVector2 0 0)]).players.filter
        (fun p => p.isHost)).length = 0 := by
  constructor <;>
    simp [runOps, applyOp, addPlayer, setPlayer, freshRoom, MAX_PLAYERS_PER_ROOM]

/-- Witness for `room_membership_invariants`: Ann joins, Bob joins, the
host Ann leaves; the remaining room has exactly one host-flagged player. -/
theorem room_membership_invariants_witness :
    ValidOps (freshRoom "4821")
      [RoomOp.add "a" "Ann" (createVector2 0 0),
       RoomOp.add "b" "Bob" (createVector2 0 0), RoomOp.remove "a"] ∧
    (runOps (freshRoom "4821")
      [RoomOp.add "a" "Ann" (createVector2 0 0),
       RoomOp.add "b" "Bob" (createVector2 0 0), RoomOp.remove "a"]).players ≠ [] ∧
    ((runOps (freshRoom "4821")
      [RoomOp.add "a" "Ann" (createVector2 0 0),
       RoomOp.add "b" "Bob" (createVector2 0 0), RoomOp.remove "a"]).players.filter
        (fun p => p.isHost)).length = 1 := by
  have hv : ValidOps (freshRoom "4821")
      [RoomOp.add "a" "Ann" (createVector2 0 0),
       RoomOp.add "b" "Bob" (createVector2 0 0), RoomOp.remove "a"] := by
    refine ⟨?_, ?_, trivial, trivial⟩
    · simp [freshRoom]
    · simp [applyOp, addPlayer, setPlayer, freshRoom, MAX_PLAYERS_PER_ROOM]
  have hne : (runOps (freshRoom "4821")
      [RoomOp.add "a" "Ann" (createVector2 0 0),
       RoomOp.add "b" "Bob" (createVector2 0 0), RoomOp.remove "a"]).players ≠ [] := by
    simp [runOps, applyOp, addPlayer, setPlayer, removePlayer, freshRoom,
      MAX_PLAYERS_PER_ROOM]
  exact ⟨hv, hne, (room_membership_invariants "4821" _).2.1 hv hne⟩

/-- C8 (refuting the cancel-before-release discipline): a reachable
trace — create room "4821", a second player joins, the host starts the
game (arming the tick interval), then both sockets disconnect before the
next tick fires.  Immediately before the second disconnect the registry
still holds the room with `loopActive = true`; the disconnect handler
then deletes the registry entry without ever calling
`gameRoom.destroy()`/`stopGameLoop()` (no code path in the handler
touches the interval), so the room is removed while its tick-loop
interval is still armed. -/
theorem room_removed_while_loop_active :
    (alistGet (handleDisconnect "p1" (handleStartGame (fun _ => createVector2 400 300)
        (fun _ => dot0) "p1" (handleJoinRoom "4821" (createVector2 300 300) "p2" "B"
          (handleCreateRoom "4821" (createVector2 400 300) "p1" "A"
            { rooms := [], playerRooms := [] })))).rooms "4821").map
      (fun room => room.loopActive) = some true ∧
    (alistGet (handleDisconnect "p1" (handleStartGame (fun _ => createVector2 400 300)
        (fun _ => dot0) "p1" (handleJoinRoom "4821" (createVector2 300 300) "p2" "B"
          (handleCreateRoom "4821" (createVector2 400 300) "p1" "A"
            { rooms := [], playerRooms := [] })))).rooms "4821").map
      (fun room => room.players.length) = some 1 ∧
    alistGet (handleDisconnect "p2" (handleDisconnect "p1"
      (handleStartGame (fun _ => createVector2 400 300)
        (fun _ => dot0) "p1" (handleJoinRoom "4821" (createVector2 300 300) "p2" "B"
          (handleCreateRoom "4821" (createVector2 400 300) "p1" "A"
            { rooms := [], playerRooms := [] }))))).rooms "4821" = none := by
  exact ⟨rfl, rfl, rfl⟩

theorem foldl_better_choice (t : ℚ) : ∀ (rest : List WorldSnapshot) (s0 : WorldSnapshot),
    rest.foldl (betterSnapshot t) s0 = s0 ∨ rest.foldl (betterSnapshot t) s0 ∈ rest := by
  intro rest
  induction rest with
  | nil => intro s0; exact Or.inl rfl
  | cons a l ih =>
    intro s0
    simp only [List.foldl_cons]
    rcases ih (betterSnapshot t s0 a) with h | h
    · rw [h]
      unfold betterSnapshot
      split_ifs
      · exact Or.inr (List.mem_cons_self a l)
      · exact Or.inl rfl
    · exact Or.inr (List.mem_cons_of_mem a h)

theorem foldl_better_min (t : ℚ) : ∀ (rest : List WorldSnapshot) (s0 : WorldSnapshot),
    jabs ((rest.foldl (betterSnapshot t) s0).timestamp - t) ≤ jabs (s0.timestamp - t) ∧
    ∀ s ∈ rest,
      jabs ((rest.foldl (betterSnapshot t) s0).timestamp - t) ≤ jabs (s.timestamp - t) := by
  intro rest
  induction rest with
  | nil => intro s0; exact ⟨le_refl _, by simp⟩
  | cons a l ih =>
    intro s0
    simp only [List.foldl_cons]
    obtain ⟨ih1, ih2⟩ := ih (betterSnapshot t s0 a)
    have hb : jabs ((betterSnapshot t s0 a).timestamp - t) ≤ jabs (s0.timestamp - t) ∧
        jabs ((betterSnapshot t s0 a).timestamp - t) ≤ jabs (a.timestamp - t) := by
      unfold betterSnapshot
      split_ifs with hlt
      · exact ⟨le_of_lt hlt, le_refl _⟩
      · exact ⟨le_refl _, le_of_not_lt hlt⟩
    refine ⟨le_trans ih1 hb.1, ?_⟩
    intro s hs
    rcases List.mem_cons.mp hs with rfl | hs2
    · exact le_trans ih1 hb.2
    · exact ih2 s hs2

theorem getSnapshotAtTime_far_none (history : List WorldSnapshot) (t : ℚ)
    (hfar : ∀ s ∈ history, jabs (s.timestamp - t) > maxHistoryDuration) :
    getSnapshotAtTime history t = none := by
  cases history with
  | nil => rfl
  | cons s0 rest =>
    simp only [getSnapshotAtTime]
    rw [if_pos]
    rcases foldl_better_choice t rest s0 with h | h
    · rw [h]
      exact hfar s0 (List.mem_cons_self s0 rest)
    · exact hfar _ (List.mem_cons_of_mem s0 h)

theorem getSnapshotAtTime_some_spec (history : List WorldSnapshot) (t : ℚ)
    (snap : WorldSnapshot) (h : getSnapshotAtTime history t = some snap) :
    snap ∈ history ∧ jabs (snap.timestamp - t) ≤ maxHistoryDuration ∧
    ∀ s ∈ history, jabs (snap.timestamp - t) ≤ jabs (s.timestamp - t) := by
  cases history with
  | nil => simp [getSnapshotAtTime] at h
  | cons s0 rest =>
    simp only [getSnapshotAtTime] at h
    split_ifs at h with hfar
    have hb : rest.foldl (betterSnapshot t) s0 = snap := Option.some.inj h
    obtain ⟨hm1, hm2⟩ := foldl_better_min t rest s0
    rw [hb] at hm1 hm2
    push_neg at hfar
    rw [hb] at hfar
    refine ⟨?_, hfar, ?_⟩
    · rcases foldl_better_choice t rest s0 with hc | hc
      · rw [hb] at hc
        rw [hc]
        exact List.mem_cons_self s0 rest
      · rw [hb] at hc
        exact List.mem_cons_of_mem s0 hc
    · intro s hs
      rcases List.mem_cons.mp hs with rfl | hs2
      · exact hm1
      · exact hm2 s hs2

/-- C6: `validateHit` computes `rewindTime = clientTimestamp −
estimatedLatency`; it is invalid whenever every stored snapshot is
outside the retention window; the snapshot it uses is the stored one
nearest the rewind time (and within retention); it is invalid when either
player is absent or not alive in that snapshot; and when both are alive
it accepts exactly when the historical distance is at most the sum of the
players' radii (half-size sum).  The embedding is a pure function of the
history: it throws nothing and mutates nothing. -/
theorem validateHit_spec (sq : ℚ → ℚ) (history : List WorldSnapshot)
    (att tgt : String) (ct lat : ℚ) :
    (validateHit sq history att tgt ct lat).rewindTime = ct - lat ∧
    ((∀ s ∈ history, jabs (s.timestamp - (ct - lat)) > maxHistoryDuration) →
      (validateHit sq history att tgt ct lat).isValid = false) ∧
    (∀ snap, getSnapshotAtTime history (ct - lat) = some snap →
      (snap ∈ history ∧ jabs (snap.timestamp - (ct - lat)) ≤ maxHistoryDuration ∧
        ∀ s ∈ history,
          jabs (snap.timestamp - (ct - lat)) ≤ jabs (s.timestamp - (ct - lat)))) ∧
    (∀ snap, getSnapshotAtTime history (ct - lat) = some snap →
      (findPlayer snap att = none ∨ findPlayer snap tgt = none ∨
       (∃ pa, findPlayer snap att = some pa ∧ pa.isAlive = false) ∨
       (∃ pt, findPlayer snap tgt = some pt ∧ pt.isAlive = false)) →
      (validateHit sq history att tgt ct lat).isValid = false) ∧
    (∀ snap pa pt, getSnapshotAtTime history (ct - lat) = some snap →
      findPlayer snap att = some pa → findPlayer snap tgt = some pt →
      pa.isAlive = true → pt.isAlive = true →
      ∀ d : ℚ, 0 ≤ d → d * d = distSq pa.position pt.position →
        sq (distSq pa.position pt.position) = d →
        ((validateHit sq history att tgt ct lat).isValid = true ↔
          d ≤ (pa.size + pt.size) / 2)) := by
  refine ⟨?_, ?_, ?_, ?_, ?_⟩
  · simp only [validateHit]
    rcases hg : getSnapshotAtTime history (ct - lat) with _ | snap
    · rfl
    · dsimp only
      rcases hfa : findPlayer snap att with _ | pa <;>
        rcases hft : findPlayer snap tgt with _ | pt <;>
        first
          | rfl
          | (dsimp only
             split_ifs <;> rfl)
  · intro hfar
    have hnone := getSnapshotAtTime_far_none history (ct - lat) hfar
    simp only [validateHit]
    rw [hnone]
  · exact fun snap h => getSnapshotAtTime_some_spec history (ct - lat) snap h
  · intro snap hg hbad
    simp only [validateHit]
    rw [hg]
    dsimp only
    rcases hfa : findPlayer snap att with _ | pa <;>
      rcases hft : findPlayer snap tgt with _ | pt
    · rfl
    · rfl
    · rfl
    · dsimp only
      rcases hbad with hc | hc | ⟨pa2, hc1, hc2⟩ | ⟨pt2, hc1, hc2⟩
      · rw [hfa] at hc
        exact absurd hc (by simp)
      · rw [hft] at hc
        exact absurd hc (by simp)
      · rw [hfa] at hc1
        have hpe : pa2 = pa := (Option.some.inj hc1).symm
        rw [hpe] at hc2
        rw [if_neg (by simp [hc2])]
      · rw [hft] at hc1
        have hpe : pt2 = pt := (Option.some.inj hc1).symm
        rw [hpe] at hc2
        rw [if_neg (by simp [hc2])]
  · intro snap pa pt hg hfa hft ha hb d _hd0 _hdsq hsq
    simp only [validateHit]
    rw [hg]
    dsimp only
    rw [hfa, hft]
    dsimp only
    rw [if_pos (show (pa.isAlive && pt.isAlive) = true by simp [ha, hb])]
    dsimp only
    rw [hsq]
    simp only [decide_eq_true_eq]

/-- Witness for `validateHit_spec`: one stored snapshot at timestamp
1000, client timestamp 1050 with estimated latency 50 rewinds exactly to
it; both players alive at distance 5 with radius sum 25, so the hit is
accepted. -/
theorem validateHit_spec_witness :
    (validateHit (fun q => if q = 25 then 5 else 0) hist0 "a" "b" 1050 50).rewindTime
      = 1000 ∧
    ((validateHit (fun q => if q = 25 then 5 else 0) hist0 "a" "b" 1050 50).isValid = true ↔
      (5 : ℚ) ≤ (snapA.size + snapB.size) / 2) := by
  have h := validateHit_spec (fun q => if q = 25 then 5 else 0) hist0 "a" "b" 1050 50
  constructor
  · rw [h.1]
    norm_num
  · have hg : getSnapshotAtTime hist0 (1050 - 50) =
        some (⟨1000, [snapA, snapB]⟩ : WorldSnapshot) := by
      simp only [hist0, getSnapshotAtTime, List.foldl_nil]
      rw [if_neg]
      norm_num [jabs, maxHistoryDuration]
    exact h.2.2.2.2 _ snapA snapB hg (by simp [findPlayer, snapA])
      (by simp [findPlayer, snapA, snapB]) rfl rfl 5 (by norm_num)
      (by norm_num [distSq, snapA, snapB, createVector2])
      (by norm_num [distSq, snapA, snapB, createVector2])

theorem jsFindIndex_eq_none {α : Type} (p : α → Bool) (l : List α)
    (h : ∀ a ∈ l, p a = false) : jsFindIndex p l = none := by
  induction l with
  | nil => rfl
  | cons a t ih =>
    unfold jsFindIndex
    rw [h a (List.mem_cons_self a t)]
    simp only [Bool.false_eq_true, if_false]
    rw [ih (fun x hx => h x (List.mem_cons_of_mem a hx))]
    rfl

theorem jsFindIndex_get {α : Type} (p : α → Bool) (l : List α) (i : ℕ)
    (h : jsFindIndex p l = some i) : ∃ a, l.get? i = some a ∧ p a = true := by
  induction l generalizing i with
  | nil => simp [jsFindIndex] at h
  | cons a t ih =>
    unfold jsFindIndex at h
    split_ifs at h with hp
    · have h0 : i = 0 := (Option.some.inj h).symm
      subst h0
      exact ⟨a, rfl, hp⟩
    · cases hft : jsFindIndex p t with
      | none => rw [hft] at h; simp at h
      | some j =>
        rw [hft] at h
        simp only [Option.map_some'] at h
        have hj : j + 1 = i := Option.some.inj h
        subst hj
        obtain ⟨b, hb, hpb⟩ := ih j hft
        exact ⟨b, by simpa using hb, hpb⟩

theorem sorted_findIdx (l : List InputFrame) (s : ℤ)
    (hs : (l.map (fun f => f.sequenceNumber)).Pairwise (· < ·))
    (hmem : s ∈ l.map (fun f => f.sequenceNumber)) :
    ∃ i : ℕ, jsFindIndex (fun input => input.sequenceNumber == s) l = some i ∧
      ∀ g ∈ l.drop (i + 1), s < g.sequenceNumber := by
  induction l with
  | nil => simp at hmem
  | cons a t ih =>
    rw [List.map_cons, List.pairwise_cons] at hs
    obtain ⟨ha, ht⟩ := hs
    by_cases heq : a.sequenceNumber = s
    · refine ⟨0, ?_, ?_⟩
      · unfold jsFindIndex
        rw [if_pos (by simp [heq])]
      · intro g hg
        rw [List.drop_succ_cons, List.drop_zero] at hg
        rw [← heq]
        exact ha _ (List.mem_map_of_mem _ hg)
    · have hmem' : s ∈ t.map (fun f => f.sequenceNumber) := by
        rw [List.map_cons, List.mem_cons] at hmem
        rcases hmem with h | h
        · exact absurd h.symm heq
        · exact h
      obtain ⟨i, hfi, hdrop⟩ := ih ht hmem'
      refine ⟨i + 1, ?_, ?_⟩
      · unfold jsFindIndex
        rw [if_neg (by simp [heq]), hfi]
        rfl
      · intro g hg
        rw [List.drop_succ_cons] at hg
        exact hdrop g hg

theorem boundedPush_getLast (l : List ServerUpdate) (u : ServerUpdate) :
    (boundedPush l u).getLast? = some u := by
  simp only [boundedPush]
  split_ifs with h
  · have hl : 1 ≤ l.length := by
      simp only [List.length_append, List.length_singleton] at h
      omega
    rw [List.drop_append_of_le_length hl, List.getLast?_concat]
  · rw [List.getLast?_concat]

theorem reapplyInputs_clientPredicted (sq : ℚ → ℚ) :
    ∀ (inputs : List InputFrame) (e : NetEntity),
      (reapplyInputs sq inputs e).clientPredicted = e.clientPredicted := by
  intro inputs
  induction inputs with
  | nil => exact fun e => rfl
  | cons a t ih =>
    intro e
    simp only [reapplyInputs, List.foldl_cons] at ih ⊢
    rw [ih]
    split_ifs <;> rfl

theorem reconcileWithServer_found (sq : ℚ → ℚ) (e : NetEntity) (lu : ServerUpdate)
    (i : ℕ) (f : InputFrame)
    (hlast : e.serverUpdates.getLast? = some lu)
    (hfi : jsFindIndex (fun input => input.sequenceNumber == lu.sequenceNumber)
      e.inputBuffer = some i)
    (hget : e.inputBuffer.get? i = some f) :
    (reconcileWithServer sq e).inputBuffer = e.inputBuffer.drop (i + 1) ∧
    (reconcileWithServer sq e).clientPredicted = e.clientPredicted := by
  simp only [reconcileWithServer]
  rw [hlast]
  dsimp only
  rw [hfi]
  dsimp only
  rw [hget]
  dsimp only
  split_ifs with herr
  · exact ⟨rfl, reapplyInputs_clientPredicted sq _ _⟩
  · exact ⟨rfl, rfl⟩

theorem processServerUpdate_unfold (sq : ℚ → ℚ) (u : ServerUpdate) (e : NetEntity)
    (h : e.clientPredicted = true) :
    processServerUpdate sq true u e =
      reconcileWithServer sq { e with lastAcknowledged := u.sequenceNumber, serverUpdates := boundedPush e.serverUpdates u } := by
  simp only [processServerUpdate]
  rw [if_pos (by simp [h])]

theorem reconcileWithServer_not_found (sq : ℚ → ℚ) (e : NetEntity)
    (h : ∀ lu, e.serverUpdates.getLast? = some lu →
      jsFindIndex (fun input => input.sequenceNumber == lu.sequenceNumber)
        e.inputBuffer = none) :
    reconcileWithServer sq e = e := by
  simp only [reconcileWithServer]
  rcases h1 : e.serverUpdates.getLast? with _ | lu
  · rfl
  · dsimp only
    rw [h lu h1]

/-- C7: reconciliation is idempotent on acknowledged sequences.  After
processing an authoritative update for a buffered sequence `u` (which
drops every buffered input with sequence ≤ u, first conjunct), processing
a second authoritative update with the same or any smaller sequence
changes neither position nor velocity: the acknowledged input is no
longer buffered, so `reconcileWithServer` returns without touching the
physics state. -/
theorem reconciliation_idempotent (sq : ℚ → ℚ) (e : NetEntity) (u v : ServerUpdate)
    (hcp : e.clientPredicted = true)
    (hsorted : (e.inputBuffer.map (fun f => f.sequenceNumber)).Pairwise (· < ·))
    (hmem : u.sequenceNumber ∈ e.inputBuffer.map (fun f => f.sequenceNumber))
    (hle : v.sequenceNumber ≤ u.sequenceNumber) :
    (∀ g ∈ (processServerUpdate sq true u e).inputBuffer,
      u.sequenceNumber < g.sequenceNumber) ∧
    (processServerUpdate sq true v (processServerUpdate sq true u e)).position =
      (processServerUpdate sq true u e).position ∧
    (processServerUpdate sq true v (processServerUpdate sq true u e)).velocity =
      (processServerUpdate sq true u e).velocity := by
  obtain ⟨i, hfi, hdrop⟩ := sorted_findIdx e.inputBuffer u.sequenceNumber hsorted hmem
  obtain ⟨f, hget, hpf⟩ := jsFindIndex_get _ _ _ hfi
  have hu := processServerUpdate_unfold sq u e hcp
  have hfound := reconcileWithServer_found sq
    { e with lastAcknowledged := u.sequenceNumber, serverUpdates := boundedPush e.serverUpdates u } u i f
    (boundedPush_getLast e.serverUpdates u) hfi hget
  have he1buf : (processServerUpdate sq true u e).inputBuffer =
      e.inputBuffer.drop (i + 1) := by
    rw [hu]
    exact hfound.1
  have he1cp : (processServerUpdate sq true u e).clientPredicted = true := by
    rw [hu, hfound.2]
    exact hcp
  refine ⟨?_, ?_⟩
  · intro g hg
    rw [he1buf] at hg
    exact hdrop g hg
  · have hnone : ∀ lu,
        (boundedPush (processServerUpdate sq true u e).serverUpdates v).getLast?
          = some lu →
        jsFindIndex (fun input => input.sequenceNumber == lu.sequenceNumber)
          (processServerUpdate sq true u e).inputBuffer = none := by
      intro lu hlu
      rw [boundedPush_getLast] at hlu
      have hlv : lu = v := (Option.some.inj hlu).symm
      subst hlv
      apply jsFindIndex_eq_none
      intro g hg
      rw [he1buf] at hg
      have hgu := hdrop g hg
      rw [beq_eq_false_iff_ne]
      intro hgv
      rw [hgv] at hgu
      omega
    have hv : processServerUpdate sq true v (processServerUpdate sq true u e) =
        { (processServerUpdate sq true u e) with lastAcknowledged := v.sequenceNumber, serverUpdates := boundedPush (processServerUpdate sq true u e).serverUpdates v } := by
      rw [processServerUpdate_unfold sq v _ he1cp]
      exact reconcileWithServer_not_found sq _ hnone
    rw [hv]
    exact ⟨rfl, rfl⟩

/-- Witness for `reconciliation_idempotent`: an entity with buffered
inputs 1, 2, 3 receives the acknowledgement for sequence 2 twice; the
second processing changes neither position nor velocity. -/
theorem reconciliation_idempotent_witness :
    (processServerUpdate (fun q => q) true (upd0 2)
        (processServerUpdate (fun q => q) true (upd0 2) netE0)).position =
      (processServerUpdate (fun q => q) true (upd0 2) netE0).position ∧
    (processServerUpdate (fun q => q) true (upd0 2)
        (processServerUpdate (fun q => q) true (upd0 2) netE0)).velocity =
      (processServerUpdate (fun q => q) true (upd0 2) netE0).velocity := by
  have h := reconciliation_idempotent (fun q => q) netE0 (upd0 2) (upd0 2) rfl
    (by simp [netE0, frame0])
    (by simp [netE0, frame0, upd0])
    (le_refl _)
  exact h.2
